import Mathlib

/-!
Verification of the ACP (Asymmetric Cognitive Projection) simulation core.

This file gives a shallow embedding, in Lean 4, of the episode simulation
engine of the `acp_simulation` package (`acp_corrected_final.py` /
`src/acp_simulation`): node and action enumerations, the cognitive
attacker's instance-based memory (`CognitiveAttacker.learn`), the two
defender policies (`PessimisticDefender`, `OptimisticACPDefender`), the
network environment step (`NetworkEnvironment.step` and its action
executors), and the episode driver (`run_single_episode`).

Modelling conventions:
* Python floats are modelled as rationals (`ℚ`); the decimal literals of
  the source (0.4185, 0.7, ...) are exact rationals here.
* All randomness (`np.random.random`, `np.random.choice`,
  `np.random.beta`, graph generation) is modelled by an explicit `Oracle`
  of draw streams, threaded through every function by a position counter,
  so that every run is a pure function of the oracle.  Theorems quantify
  over the oracle, hence over every possible outcome of the draws.
* The transcendental parts of the IBLT activation
  (`ln(max(dt^-d, 1e-10)) * confidence + noise * N(0,1)`) are real-valued
  and carry an unbounded Gaussian noise term; their value is modelled as
  an oracle-supplied rational (`act : Instance → ℚ` in `learn`,
  `Oracle.akey` inside an episode).  Every value is reachable in the
  source for suitable noise outcomes, so quantifying over the oracle is
  faithful.
* Python's stable `list.sort(key=..., reverse=True)` is modelled by
  `List.insertionSort` with the reflexive descending-key relation; every
  property stated below is independent of the order of equal keys.
-/

set_option maxRecDepth 40000

/-- Node states, from `core/enums.py` (`NodeState`). -/
inductive NodeState where
  | CLEAN
  | COMPROMISED
  | HONEYPOT
  | PATCHED
  | ISOLATED
deriving DecidableEq, Repr

/-- Actions of both agents, from `core/enums.py` (`ActionType`). -/
inductive ActionType where
  | SCAN
  | EXPLOIT
  | PROPAGATE
  | MONITOR
  | PATCH
  | ISOLATE
  | DEPLOY_HONEYPOT
  | ACP_DECEPTION
  | RESTORE_NODE
deriving DecidableEq, Repr

/-- Encoded situation tuple, from `CognitiveAttacker._encode_situation`:
`(len(known_nodes), len(compromised_nodes), alert_level, time // 10)`. -/
def Situation : Type := Nat × Nat × ℚ × Nat

instance : DecidableEq Situation := inferInstanceAs (DecidableEq (Nat × Nat × ℚ × Nat))

/-- One attacker memory record, from `core/dataclasses.py` (`Instance`). -/
structure Instance where
  situation : Situation
  action : ActionType
  outcome : ℚ
  timestamp : Nat
  confidence : ℚ
deriving DecidableEq

/-- The attacker state mutated by `CognitiveAttacker.learn`: the bounded
memory list and the overall-confidence EMA (`BaseAttacker.__init__` starts
it at 1.0). -/
structure AttackerState where
  memory : List Instance
  overall_confidence : ℚ
deriving DecidableEq

/-- Fresh attacker: empty memory, `overall_confidence = 1.0`. -/
def attackerInit : AttackerState := { memory := [], overall_confidence := 1 }

/-- Python slice `l[-n:]`: the last `n` elements of the list. -/
def lastN (n : Nat) (l : List α) : List α := l.drop (l.length - n)

/-- `np.mean` of the confidences of a list of instances. -/
def confMean (l : List Instance) : ℚ := (l.map Instance.confidence).sum / (l.length : ℚ)

/-- Pruning key of `CognitiveAttacker.learn`:
`activation_potential(inst) = self.activation(inst, timestamp) * inst.confidence`,
with the activation value supplied by the oracle `act`. -/
def pruneKey (act : Instance → ℚ) (i : Instance) : ℚ := act i * i.confidence

/-- Descending-key ordering used for `self.memory.sort(key=..., reverse=True)`. -/
def pruneLe (act : Instance → ℚ) (a b : Instance) : Prop :=
  pruneKey act b ≤ pruneKey act a

instance (act : Instance → ℚ) : DecidableRel (pruneLe act) :=
  fun a b => inferInstanceAs (Decidable (pruneKey act b ≤ pruneKey act a))

instance (act : Instance → ℚ) : IsTotal Instance (pruneLe act) :=
  ⟨fun a b => le_total (pruneKey act b) (pruneKey act a)⟩

instance (act : Instance → ℚ) : IsTrans Instance (pruneLe act) :=
  ⟨fun _ _ _ h1 h2 => le_trans h2 h1⟩

/-- `CognitiveAttacker.learn(situation, action, outcome, timestamp, confidence)`
from `agents/attacker.py` (identical in `acp_corrected_final.py`):
append the new `Instance`; update
`overall_confidence = 0.9 * prev + 0.1 * mean(confidence of memory[-20:])`;
then, if the memory holds more than 150 instances, sort it by
`activation(inst, timestamp) * inst.confidence` descending and keep the
first 100.  The activation value is oracle-supplied (`act`). -/
def learn (act : Instance → ℚ) (s : AttackerState) (situation : Situation)
    (action : ActionType) (outcome : ℚ) (timestamp : Nat) (confidence : ℚ) :
    AttackerState :=
  let mem1 := s.memory ++ [⟨situation, action, outcome, timestamp, confidence⟩]
  let newConf := 0.9 * s.overall_confidence + 0.1 * confMean (lastN 20 mem1)
  let mem2 := if 150 < mem1.length then (mem1.insertionSort (pruneLe act)).take 100 else mem1
  { memory := mem2, overall_confidence := newConf }

/-- The arguments of one `learn` call (with its activation oracle). -/
structure LearnCall where
  act : Instance → ℚ
  situation : Situation
  action : ActionType
  outcome : ℚ
  timestamp : Nat
  confidence : ℚ

/-- Apply one recorded `learn` call to an attacker state. -/
def applyLearn (s : AttackerState) (c : LearnCall) : AttackerState :=
  learn c.act s c.situation c.action c.outcome c.timestamp c.confidence

/-- A fresh `CognitiveAttacker` after an arbitrary sequence of `learn` calls. -/
def runLearn (calls : List LearnCall) : AttackerState :=
  calls.foldl applyLearn attackerInit

/-- Explicit model of all randomness consumed by one episode:
`unif` models successive `np.random.random` / `np.random.uniform` /
`np.random.beta` draws, `idx` models `np.random.choice` index draws,
`adj` models the generated Erdős–Rényi adjacency, and `akey` models the
real-valued IBLT activation computed during memory pruning (indexed by
current time and instance timestamp). -/
structure Oracle where
  unif : Nat → ℚ
  idx : Nat → Nat
  adj : Nat → Nat → Bool
  akey : Nat → Nat → ℚ

/-- `np.random.choice(l)` modelled as an oracle-chosen index into `l`. -/
def pickFrom (o : Oracle) (p : Nat) (l : List Nat) : Nat :=
  l.getD (o.idx p % l.length) 0

/-- Tail of `PessimisticDefender.select_action` and of
`OptimisticACPDefender.select_action` (compromised / monitor tiers of the
ACP policy). -/
def acpTail (o : Oracle) (p : Nat) (compromisedFlag : Bool) : ActionType × Nat :=
  if compromisedFlag then
    if o.unif p < 0.7 then (ActionType.PATCH, p + 1) else (ActionType.ISOLATE, p + 1)
  else (ActionType.MONITOR, p)

/-- `PessimisticDefender.select_action` (`agents/defender.py` lines 101-157,
`acp_corrected_final.py` lines 253-293): one uniform roll, then the
cumulative-threshold tiers of the source.  `compromisedFlag` is the
source's check that its node-state dictionary holds a COMPROMISED node.
Returns the action and the next draw position. -/
def pessimisticSelectAction (o : Oracle) (p : Nat) (compromisedFlag : Bool) :
    ActionType × Nat :=
  let roll := o.unif p
  (if roll < 0.4185 then ActionType.RESTORE_NODE
   else if roll < 0.4185 + 0.30 * (1 - 0.4185) then
     (if compromisedFlag then ActionType.ISOLATE else ActionType.PATCH)
   else if roll < 0.4185 + 0.70 * (1 - 0.4185) then ActionType.PATCH
   else ActionType.MONITOR,
   p + 1)

/-- `OptimisticACPDefender.select_action` (`agents/defender.py` lines
247-299): deception tier when more than 5 attacker-unknown nodes (coin
0.45), honeypot tier when more than 3 (coin 0.35, also reached from the
failed deception coin, mirroring the source's `elif` with lazy draws),
then the compromised/monitor tail.  RESTORE_NODE appears nowhere. -/
def acpSelectAction (o : Oracle) (p : Nat) (unknownCount : Nat)
    (compromisedFlag : Bool) : ActionType × Nat :=
  if 5 < unknownCount then
    if o.unif p < 0.45 then (ActionType.ACP_DECEPTION, p + 1)
    else if o.unif (p + 1) < 0.35 then (ActionType.DEPLOY_HONEYPOT, p + 2)
    else acpTail o (p + 2) compromisedFlag
  else if 3 < unknownCount then
    if o.unif p < 0.35 then (ActionType.DEPLOY_HONEYPOT, p + 1)
    else acpTail o (p + 1) compromisedFlag
  else acpTail o p compromisedFlag

/-- One false-signal record produced by
`OptimisticACPDefender.deploy_acp_deception`; `false_criticality` indexes
the list `['critical', 'high', 'important']`. -/
structure DeceptionRecord where
  false_vulnerability : ℚ
  false_value : ℚ
  false_criticality : Nat
  timestamp : Nat
  success : Bool
deriving DecidableEq

/-- `OptimisticACPDefender.deploy_acp_deception(target_nodes, current_time,
attacker_knowledge)` (`agents/defender.py` lines 301-355): for each target
not in `attacker_knowledge`, with probability `acp_strength` emit a record
with `false_vulnerability ~ U(0.85, 0.98)`, `false_value ~ U(0.75, 0.95)`
and a random criticality.  Returns the node-to-record mapping (as an
association list in target order) and the next draw position. -/
def deployACPDeception (o : Oracle) (strength : ℚ) (currentTime : Nat)
    (knowledge : Finset Nat) : Nat → List Nat → List (Nat × DeceptionRecord) × Nat
  | p, [] => ([], p)
  | p, n :: rest =>
    if n ∈ knowledge then deployACPDeception o strength currentTime knowledge p rest
    else if o.unif p < strength then
      let record : DeceptionRecord :=
        { false_vulnerability := 0.85 + 0.13 * o.unif (p + 1)
          false_value := 0.75 + 0.2 * o.unif (p + 2)
          false_criticality := o.idx (p + 3) % 3
          timestamp := currentTime
          success := true }
      let restRes := deployACPDeception o strength currentTime knowledge (p + 4) rest
      ((n, record) :: restRes.1, restRes.2)
    else deployACPDeception o strength currentTime knowledge (p + 1) rest

/-- `PessimisticDefender.deploy_acp_deception` (`acp_corrected_final.py`
lines 295-297): the pessimistic defender never deceives; the mapping is
always empty. -/
def pessimisticDeployACPDeception (_targetNodes : List Nat) (_currentTime : Nat)
    (_knowledge : Finset Nat) : List (Nat × DeceptionRecord) := []

/-- Environment state of `NetworkEnvironment`: node states, vulnerabilities,
the (episode-fixed) adjacency and the current time. -/
structure EnvState where
  numNodes : Nat
  adj : Nat → Nat → Bool
  states : Nat → NodeState
  vuln : Nat → ℚ
  time : Nat

/-- `self.network.nodes()` / iteration order of the node-state dictionary
(node ids are inserted in increasing order at construction). -/
def nodesList (env : EnvState) : List Nat := List.range env.numNodes

/-- `[n for n, s in self.node_states.items() if s == COMPROMISED]`. -/
def compromisedList (env : EnvState) : List Nat :=
  (nodesList env).filter fun i => decide (env.states i = NodeState.COMPROMISED)

/-- Number of COMPROMISED nodes. -/
def compromisedCount (env : EnvState) : Nat := (compromisedList env).length

/-- Number of CLEAN nodes. -/
def cleanCount (env : EnvState) : Nat :=
  ((nodesList env).filter fun i => decide (env.states i = NodeState.CLEAN)).length

/-- `NetworkEnvironment._check_termination` (`environment/network.py` lines
487-503): terminate when `compromised > num_nodes * 0.7` or
`current_time > 50`. -/
def checkTermination (env : EnvState) : Bool :=
  decide ((0.7 : ℚ) * (env.numNodes : ℚ) < (compromisedCount env : ℚ)) || decide (50 < env.time)

/-- The observation dictionary of `NetworkEnvironment._get_state`. -/
structure Observation where
  compromised_count : Nat
  clean_count : Nat
  alert_level : ℚ
  network_health : ℚ
  time : Nat

/-- `NetworkEnvironment._get_state`. -/
def getState (env : EnvState) : Observation :=
  { compromised_count := compromisedCount env
    clean_count := cleanCount env
    alert_level := (compromisedCount env : ℚ) / (env.numNodes : ℚ)
    network_health := (cleanCount env : ℚ) / (env.numNodes : ℚ)
    time := env.time }

/-- `CognitiveAttacker._encode_situation` applied to an observation, using
the attacker's (post-action) known/compromised sets, as in phase 5 of
`NetworkEnvironment.step`. -/
def encodeSituation (known comp : Finset Nat) (obs : Observation) : Situation :=
  (known.card, comp.card, obs.alert_level, obs.time / 10)

/-- Result of `NetworkEnvironment._execute_defender_action`. -/
structure DefExec where
  success : Bool
  env : EnvState
  pos : Nat

/-- `NetworkEnvironment._execute_defender_action` (`environment/network.py`
lines 322-383).  MONITOR always succeeds; PATCH halves the vulnerability of
a random clean node with vulnerability above 0.5 and marks it PATCHED;
ISOLATE marks a random compromised node ISOLATED; DEPLOY_HONEYPOT marks a
random clean node HONEYPOT; RESTORE_NODE reverts the first
`min(3, #compromised)` compromised nodes (in dictionary order) to CLEAN
with freshly drawn vulnerabilities.  Actions with unmet preconditions are
silent no-ops (`success = false`).  Attacker-side actions fall through. -/
def execDefenderAction (o : Oracle) (p : Nat) (a : ActionType) (env : EnvState) : DefExec :=
  match a with
  | ActionType.MONITOR => ⟨true, env, p⟩
  | ActionType.PATCH =>
    let vulnerable := (nodesList env).filter fun i =>
      decide (0.5 < env.vuln i) && decide (env.states i = NodeState.CLEAN)
    if vulnerable.isEmpty then ⟨false, env, p⟩
    else
      let target := pickFrom o p vulnerable
      ⟨true,
       { env with
         vuln := fun i => if i = target then env.vuln i * 0.5 else env.vuln i
         states := fun i => if i = target then NodeState.PATCHED else env.states i },
       p + 1⟩
  | ActionType.ISOLATE =>
    let comp := compromisedList env
    if comp.isEmpty then ⟨false, env, p⟩
    else
      let target := pickFrom o p comp
      ⟨true, { env with states := fun i => if i = target then NodeState.ISOLATED else env.states i },
       p + 1⟩
  | ActionType.DEPLOY_HONEYPOT =>
    let clean := (nodesList env).filter fun i => decide (env.states i = NodeState.CLEAN)
    if clean.isEmpty then ⟨false, env, p⟩
    else
      let target := pickFrom o p clean
      ⟨true, { env with states := fun i => if i = target then NodeState.HONEYPOT else env.states i },
       p + 1⟩
  | ActionType.RESTORE_NODE =>
    let comp := compromisedList env
    if comp.isEmpty then ⟨false, env, p⟩
    else
      let restored := comp.take 3
      ⟨true,
       { env with
         states := fun i => if restored.contains i then NodeState.CLEAN else env.states i
         vuln := fun i => if restored.contains i then o.unif (p + restored.indexOf i) else env.vuln i },
       p + restored.length⟩
  | _ => ⟨false, env, p⟩

/-- Result of `NetworkEnvironment._execute_attacker_action`. -/
structure AttExec where
  success : Bool
  reward : ℚ
  env : EnvState
  known : Finset Nat
  comp : Finset Nat
  pos : Nat

/-- `list(finset)` for drawing with `np.random.choice`. -/
def sortedList (s : Finset Nat) : List Nat := s.sort (· ≤ ·)

/-- `NetworkEnvironment._execute_attacker_action` (`environment/network.py`
lines 239-320).  SCAN discovers a fresh neighbour of a random known node
(or an initial entry point); EXPLOIT compromises a random known clean node
with probability equal to its vulnerability (reward 10 on success, -1 on
failure); PROPAGATE moves laterally from a random compromised node to a
random clean non-compromised neighbour with probability 0.6.  Nodes are
only ever added to `known_nodes` / `compromised_nodes`. -/
def execAttackerAction (o : Oracle) (p : Nat) (a : ActionType) (env : EnvState)
    (known comp : Finset Nat) : AttExec :=
  match a with
  | ActionType.SCAN =>
    if known = ∅ then
      let start := pickFrom o p (nodesList env)
      ⟨true, 2, env, insert start known, comp, p + 1⟩
    else
      let current := pickFrom o p (sortedList known)
      let newNodes := (nodesList env).filter fun j =>
        env.adj current j && decide (j ∉ known)
      if newNodes.isEmpty then ⟨false, 0, env, known, comp, p + 1⟩
      else
        let discovered := pickFrom o (p + 1) newNodes
        ⟨true, 2, env, insert discovered known, comp, p + 2⟩
  | ActionType.EXPLOIT =>
    let exploitable := (sortedList known).filter fun i => decide (env.states i = NodeState.CLEAN)
    if exploitable.isEmpty then ⟨false, 0, env, known, comp, p⟩
    else
      let target := pickFrom o p exploitable
      if o.unif (p + 1) < env.vuln target then
        ⟨true, 10,
         { env with states := fun i => if i = target then NodeState.COMPROMISED else env.states i },
         known, insert target comp, p + 2⟩
      else ⟨false, -1, env, known, comp, p + 2⟩
  | ActionType.PROPAGATE =>
    if comp = ∅ then ⟨false, 0, env, known, comp, p⟩
    else
      let source := pickFrom o p (sortedList comp)
      let targets := (nodesList env).filter fun j =>
        env.adj source j && decide (j ∉ comp) && decide (env.states j = NodeState.CLEAN)
      if targets.isEmpty then ⟨false, 0, env, known, comp, p + 1⟩
      else
        let target := pickFrom o (p + 1) targets
        if o.unif (p + 2) < 0.6 then
          ⟨true, 5,
           { env with states := fun i => if i = target then NodeState.COMPROMISED else env.states i },
           insert target known, insert target comp, p + 3⟩
        else ⟨false, 0, env, known, comp, p + 3⟩
  | _ => ⟨false, 0, env, known, comp, p⟩

/-- Action costs from `NetworkEnvironment.__init__` (thesis Table 1). -/
def actionCost : ActionType → ℚ
  | ActionType.SCAN => 0.5
  | ActionType.EXPLOIT => 2
  | ActionType.PROPAGATE => 1
  | ActionType.MONITOR => 0.1
  | ActionType.PATCH => 1.5
  | ActionType.ISOLATE => 3
  | ActionType.DEPLOY_HONEYPOT => 2
  | ActionType.ACP_DECEPTION => 1
  | ActionType.RESTORE_NODE => 6

/-- Success bonuses of `NetworkEnvironment._calculate_defender_reward`
(`decCount` is the number of deception records this step). -/
def successBonus (a : ActionType) (decCount : Nat) : ℚ :=
  match a with
  | ActionType.PATCH => 4
  | ActionType.ISOLATE => 10
  | ActionType.DEPLOY_HONEYPOT => 5
  | ActionType.ACP_DECEPTION => 15 * (decCount : ℚ)
  | ActionType.RESTORE_NODE => 12
  | ActionType.MONITOR => 1
  | _ => 0

/-- `NetworkEnvironment._calculate_defender_reward`: cost, survival bonus
of 0.4 per clean node, success bonus, and -2 per compromised node. -/
def defenderReward (a : ActionType) (success : Bool) (decCount : Nat) (env : EnvState) : ℚ :=
  - actionCost a + 0.4 * (cleanCount env : ℚ)
    + (if success then successBonus a decCount else 0)
    - 2 * (compromisedCount env : ℚ)

/-- `NetworkEnvironment._calculate_attacker_reward`. -/
def attackerReward (a : ActionType) (success : Bool) (outcomeReward : ℚ) : ℚ :=
  - actionCost a + (if success then outcomeReward else 0)

/-- Uniform random choice among the three attacker actions. -/
def pick3Action (k : Nat) : ActionType :=
  [ActionType.SCAN, ActionType.EXPLOIT, ActionType.PROPAGATE].getD (k % 3) ActionType.SCAN

/-- `CognitiveAttacker.select_action` (`agents/attacker.py` lines 98-166):
with empty memory, bootstrap with SCAN; otherwise compare the expected
values of the three attacker actions (the activation/softmax blend and the
uniform exploration bonus are real-valued, so the three expected values
are modelled as oracle draws; `max` over the value dictionary takes the
first maximum), then with probability 0.1 override with a uniformly random
attacker action. -/
def attackerSelectAction (o : Oracle) (p : Nat) (att : AttackerState) : ActionType × Nat :=
  if att.memory.isEmpty then (ActionType.SCAN, p)
  else
    let evScan := o.unif p
    let evExploit := o.unif (p + 1)
    let evPropagate := o.unif (p + 2)
    let best :=
      if evScan < evExploit then
        (if evExploit < evPropagate then ActionType.PROPAGATE else ActionType.EXPLOIT)
      else (if evScan < evPropagate then ActionType.PROPAGATE else ActionType.SCAN)
    if o.unif (p + 3) < 0.1 then (pick3Action (o.idx (p + 4)), p + 5) else (best, p + 4)

/-- `SimulationConfig` (`core/dataclasses.py`), restricted to the fields the
episode engine consumes.  `vulnerability_distribution` is an enum index
(0 = uniform). -/
structure SimulationConfig where
  num_episodes : Nat
  num_nodes : Nat
  connectivity : ℚ
  acp_strength : ℚ
  learning_rate : ℚ
  decay_rate : ℚ
  noise : ℚ
  vulnerability_distribution : Nat
  random_seed : Int
  max_steps_per_episode : Nat

/-- `SimulationConfig.get_episode_seed` (`core/dataclasses.py` lines
186-200): `random_seed + episode_id`. -/
def SimulationConfig.get_episode_seed (c : SimulationConfig) (episode_id : Int) : Int :=
  c.random_seed + episode_id

/-- Aggregate per-episode mutable state threaded through the step loop of
`run_single_episode`: the environment, the attacker's sets and memory, the
defender's private node-state copy (initialised CLEAN and never written by
the environment, which mutates only its own dictionary), the draw
position, and the runner's accumulators. -/
structure SimState where
  env : EnvState
  known : Finset Nat
  comp : Finset Nat
  att : AttackerState
  defNodeStates : Nat → NodeState
  pos : Nat
  stepCount : Nat
  actions : List ActionType
  rewardsPerStep : List ℚ
  confTrajectory : List ℚ
  totalReward : ℚ
  done : Bool

/-- Result of phase 3 of `NetworkEnvironment.step` (defender acting during
the cognitive-latency window). -/
structure DefPhase where
  decResults : List (Nat × DeceptionRecord)
  success : Bool
  env : EnvState
  pos : Nat

/-- Phase 3 of `NetworkEnvironment.step` (`environment/network.py` lines
179-203): on ACP_DECEPTION, target the first 5 attacker-unknown nodes and
call the defender's `deploy_acp_deception` (the pessimistic variant's is a
no-op); otherwise execute the ordinary defender action. -/
def defenderPhase (o : Oracle) (useAcp : Bool) (strength : ℚ) (dAct : ActionType)
    (env1 : EnvState) (known : Finset Nat) (p : Nat) : DefPhase :=
  if dAct = ActionType.ACP_DECEPTION then
    let unknownList := (nodesList env1).filter fun i => decide (i ∉ known)
    if unknownList.isEmpty then ⟨[], false, env1, p⟩
    else
      let targets := unknownList.take 5
      if useAcp then
        let res := deployACPDeception o strength env1.time known p targets
        ⟨res.1, !res.1.isEmpty, env1, res.2⟩
      else ⟨pessimisticDeployACPDeception targets env1.time known, false, env1, p⟩
  else
    let dex := execDefenderAction o p dAct env1
    ⟨[], dex.success, dex.env, dex.pos⟩

/-- One iteration of the episode loop of `run_single_episode`
(`simulation/runner.py` lines 118-141) together with the enclosed
`NetworkEnvironment.step` (`environment/network.py` lines 141-237):
select both actions, increment time, draw the (unused) cognitive latency,
run the defender phase during the latency window, execute the attacker
action, apply confidence-adjusted learning (poisoned confidence
`U(0.3, 0.5)` after a successful deception; the configurable attacker
scales it by `learning_rate`, 1.0 by default), compute the defender
reward, check termination, and append to the runner's accumulators. -/
def stepOnce (o : Oracle) (cfg : SimulationConfig) (useAcp : Bool) (st : SimState) : SimState :=
  let sel := attackerSelectAction o st.pos st.att
  let aAct := sel.1
  let unknownCount := ((nodesList st.env).filter fun i => decide (i ∉ st.known)).length
  let defComp := !((nodesList st.env).filter fun i =>
    decide (st.defNodeStates i = NodeState.COMPROMISED)).isEmpty
  let dsel := if useAcp then acpSelectAction o sel.2 unknownCount defComp
              else pessimisticSelectAction o sel.2 defComp
  let dAct := dsel.1
  let env1 : EnvState := { st.env with time := st.env.time + 1 }
  let obs := getState env1
  let p3 := dsel.2 + 1
  let dph := defenderPhase o useAcp cfg.acp_strength dAct env1 st.known p3
  let aex := execAttackerAction o dph.pos aAct dph.env st.known st.comp
  let situation := encodeSituation aex.known aex.comp obs
  let poisoned := !dph.decResults.isEmpty
  let learnConf := if poisoned then 0.3 + 0.2 * o.unif aex.pos else 1
  let p5 := if poisoned then aex.pos + 1 else aex.pos
  let att1 := learn (fun inst => o.akey env1.time inst.timestamp) st.att situation aAct
    aex.reward env1.time (cfg.learning_rate * learnConf)
  let dReward := defenderReward dAct dph.success dph.decResults.length aex.env
  { env := aex.env
    known := aex.known
    comp := aex.comp
    att := att1
    defNodeStates := st.defNodeStates
    pos := p5
    stepCount := st.stepCount + 1
    actions := st.actions ++ [dAct]
    rewardsPerStep := st.rewardsPerStep ++ [dReward]
    confTrajectory := st.confTrajectory ++ [att1.overall_confidence]
    totalReward := st.totalReward + dReward
    done := checkTermination aex.env }

/-- The `while True` loop of `run_single_episode`: execute a step, then
break when the environment reports `done` or `step_count > max_steps`.
The fuel argument is a structural bound; the episode driver passes
`maxSteps + 1`, which the loop can never exhaust before its break
condition fires. -/
def runLoop (o : Oracle) (cfg : SimulationConfig) (useAcp : Bool) (maxSteps : Nat) :
    Nat → SimState → SimState
  | 0, st => st
  | fuel + 1, st =>
    let st1 := stepOnce o cfg useAcp st
    if st1.done || decide (maxSteps < st1.stepCount) then st1
    else runLoop o cfg useAcp maxSteps fuel st1

/-- The per-episode result dictionary of `run_single_episode`. -/
structure EpisodeResult where
  episode_id : Int
  use_acp : Bool
  total_reward : ℚ
  steps : Nat
  actions : List ActionType
  action_counts : ActionType → Nat
  rewards_per_step : List ℚ
  final_attacker_confidence : ℚ
  attacker_confidence_trajectory : List ℚ

/-- Initial per-episode state: all nodes CLEAN, vulnerabilities freshly
drawn, empty attacker sets and memory, confidence 1. -/
def initialState (o : Oracle) (numNodes : Nat) : SimState :=
  { env := { numNodes := numNodes, adj := o.adj, states := fun _ => NodeState.CLEAN,
             vuln := fun i => o.unif i, time := 0 }
    known := ∅
    comp := ∅
    att := attackerInit
    defNodeStates := fun _ => NodeState.CLEAN
    pos := numNodes
    stepCount := 0
    actions := []
    rewardsPerStep := []
    confTrajectory := []
    totalReward := 0
    done := false }

/-- `run_single_episode(episode_id, use_acp, config)` (`simulation/runner.py`
lines 30-160): seed every random stream from
`config.get_episode_seed(episode_id)` (modelled by applying the process
generator `gen` to the seed), build the environment, attacker and chosen
defender, run the step loop capped at
`min(config.max_steps_per_episode, config.num_nodes)`, and assemble the
result dictionary. -/
def run_single_episode (gen : Int → Oracle) (episode_id : Int) (use_acp : Bool)
    (config : SimulationConfig) : EpisodeResult :=
  let o := gen (config.get_episode_seed episode_id)
  let maxSteps := min config.max_steps_per_episode config.num_nodes
  let final := runLoop o config use_acp maxSteps (maxSteps + 1) (initialState o config.num_nodes)
  { episode_id := episode_id
    use_acp := use_acp
    total_reward := final.totalReward
    steps := final.stepCount
    actions := final.actions
    action_counts := fun a => final.actions.count a
    rewards_per_step := final.rewardsPerStep
    final_attacker_confidence := final.att.overall_confidence
    attacker_confidence_trajectory := final.confTrajectory }

/-! ### Helper lemmas -/

lemma acpTail_ne_restore (o : Oracle) (p : Nat) (f : Bool) :
    (acpTail o p f).1 ≠ ActionType.RESTORE_NODE := by
  unfold acpTail
  split
  · split <;> simp
  · simp

lemma acpSelectAction_ne_restore (o : Oracle) (p unknownCount : Nat) (f : Bool) :
    (acpSelectAction o p unknownCount f).1 ≠ ActionType.RESTORE_NODE := by
  unfold acpSelectAction
  split
  · split
    · simp
    · split
      · simp
      · exact acpTail_ne_restore _ _ _
  · split
    · split
      · simp
      · exact acpTail_ne_restore _ _ _
    · exact acpTail_ne_restore _ _ _

lemma stepOnce_actions_append (o : Oracle) (cfg : SimulationConfig) (u : Bool) (st : SimState) :
    ∃ a, (stepOnce o cfg u st).actions = st.actions ++ [a]
      ∧ (u = true → a ≠ ActionType.RESTORE_NODE) := by
  refine ⟨_, rfl, ?_⟩
  intro hu
  subst hu
  rw [if_pos rfl]
  exact acpSelectAction_ne_restore _ _ _ _

lemma stepOnce_count_restore (o : Oracle) (cfg : SimulationConfig) (st : SimState) :
    ((stepOnce o cfg true st).actions).count ActionType.RESTORE_NODE
      = st.actions.count ActionType.RESTORE_NODE := by
  obtain ⟨a, ha, hne⟩ := stepOnce_actions_append o cfg true st
  rw [ha, List.count_append]
  have hz : List.count ActionType.RESTORE_NODE [a] = 0 :=
    List.count_eq_zero.mpr (by
      simp only [List.mem_singleton]
      exact fun h => hne rfl h.symm)
  omega

lemma runLoop_count_restore (o : Oracle) (cfg : SimulationConfig) (m : Nat) :
    ∀ (fuel : Nat) (st : SimState),
      ((runLoop o cfg true m fuel st).actions).count ActionType.RESTORE_NODE
        = st.actions.count ActionType.RESTORE_NODE := by
  intro fuel
  induction fuel with
  | zero => intro st; rfl
  | succ k ih =>
    intro st
    simp only [runLoop]
    split
    · exact stepOnce_count_restore o cfg st
    · rw [ih (stepOnce o cfg true st), stepOnce_count_restore o cfg st]

/-! ### Claim C1 -/

/-- C1: for every oracle state (hence for every outcome of the internal
random draws), every draw position, every attacker-knowledge set and every
compromise flag, `OptimisticACPDefender.select_action` never returns
RESTORE_NODE; consequently, across any number of steps of any episode run
with the ACP defender, the recorded defender action history contains zero
RESTORE_NODE entries. -/
theorem C1_acp_never_restore_node :
    (∀ (o : Oracle) (p unknownCount : Nat) (compromisedFlag : Bool),
        (acpSelectAction o p unknownCount compromisedFlag).1 ≠ ActionType.RESTORE_NODE)
    ∧ ∀ (gen : Int → Oracle) (episode_id : Int) (config : SimulationConfig),
        ((run_single_episode gen episode_id true config).actions).count
            ActionType.RESTORE_NODE = 0 := by
  constructor
  · exact acpSelectAction_ne_restore
  · intro gen e c
    have h : (run_single_episode gen e true c).actions
        = (runLoop (gen (c.get_episode_seed e)) c true
            (min c.max_steps_per_episode c.num_nodes)
            (min c.max_steps_per_episode c.num_nodes + 1)
            (initialState (gen (c.get_episode_seed e)) c.num_nodes)).actions := rfl
    rw [h, runLoop_count_restore]
    rfl

/-! ### Claim C5 -/

/-- C5: `PessimisticDefender.select_action` draws one uniform number `r`
and returns RESTORE_NODE when `r < 0.4185`; otherwise ISOLATE (when a
compromised node is seen) or PATCH when `r < 0.4185 + 0.30*(1-0.4185)`;
otherwise PATCH when `r < 0.4185 + 0.70*(1-0.4185)`; otherwise MONITOR.
It never returns ACP_DECEPTION, and consumes exactly one draw. -/
theorem C5_pessimistic_action_tiers :
    ∀ (o : Oracle) (p : Nat) (compromisedFlag : Bool),
      (o.unif p < 0.4185 →
        (pessimisticSelectAction o p compromisedFlag).1 = ActionType.RESTORE_NODE)
      ∧ (¬ o.unif p < 0.4185 → o.unif p < 0.4185 + 0.30 * (1 - 0.4185) →
        (pessimisticSelectAction o p compromisedFlag).1
          = (if compromisedFlag then ActionType.ISOLATE else ActionType.PATCH))
      ∧ (¬ o.unif p < 0.4185 + 0.30 * (1 - 0.4185) →
          o.unif p < 0.4185 + 0.70 * (1 - 0.4185) →
        (pessimisticSelectAction o p compromisedFlag).1 = ActionType.PATCH)
      ∧ (¬ o.unif p < 0.4185 + 0.70 * (1 - 0.4185) →
        (pessimisticSelectAction o p compromisedFlag).1 = ActionType.MONITOR)
      ∧ (pessimisticSelectAction o p compromisedFlag).1 ≠ ActionType.ACP_DECEPTION
      ∧ (pessimisticSelectAction o p compromisedFlag).2 = p + 1 := by
  intro o p f
  refine ⟨?_, ?_, ?_, ?_, ?_, rfl⟩
  · intro h1
    simp [pessimisticSelectAction, h1]
  · intro h1 h2
    simp [pessimisticSelectAction, h1, h2]
  · intro h2 h3
    have h1 : ¬ o.unif p < 0.4185 := by
      intro hc
      apply h2
      have hlt : (0.4185 : ℚ) ≤ 0.4185 + 0.30 * (1 - 0.4185) := by norm_num
      linarith
    simp [pessimisticSelectAction, h1, h2, h3]
  · intro h3
    have h2 : ¬ o.unif p < 0.4185 + 0.30 * (1 - 0.4185) := by
      intro hc
      apply h3
      have hlt : (0.4185 : ℚ) + 0.30 * (1 - 0.4185) ≤ 0.4185 + 0.70 * (1 - 0.4185) := by
        norm_num
      linarith
    have h1 : ¬ o.unif p < 0.4185 := by
      intro hc
      apply h2
      have hlt : (0.4185 : ℚ) ≤ 0.4185 + 0.30 * (1 - 0.4185) := by norm_num
      linarith
    simp [pessimisticSelectAction, h1, h2, h3]
  · simp only [pessimisticSelectAction]
    split
    · simp
    · split
      · split <;> simp
      · split <;> simp

/-- Oracle whose uniform draws are all 0 (every coin succeeds). -/
def constOracle : Oracle :=
  { unif := fun _ => 0, idx := fun _ => 0, adj := fun _ _ => false, akey := fun _ _ => 0 }

/-- Oracle whose uniform draws are all 1 (every coin fails). -/
def onesOracle : Oracle :=
  { unif := fun _ => 1, idx := fun _ => 0, adj := fun _ _ => false, akey := fun _ _ => 0 }

/-- Witness for C5: with a zero draw the pessimistic defender restores,
with a unit draw it monitors. -/
theorem C5_witness :
    (pessimisticSelectAction constOracle 0 false).1 = ActionType.RESTORE_NODE
    ∧ (pessimisticSelectAction onesOracle 0 true).1 = ActionType.MONITOR :=
  ⟨(C5_pessimistic_action_tiers constOracle 0 false).1 (by norm_num [constOracle]),
   (C5_pessimistic_action_tiers onesOracle 0 true).2.2.2.1 (by norm_num [onesOracle])⟩

/-! ### Claim C4 -/

lemma deploy_mem_not_in_knowledge (o : Oracle) (strength : ℚ) (ct : Nat)
    (knowledge : Finset Nat) :
    ∀ (targets : List Nat) (p : Nat) (pr : Nat × DeceptionRecord),
      pr ∈ (deployACPDeception o strength ct knowledge p targets).1 → pr.1 ∉ knowledge := by
  intro targets
  induction targets with
  | nil =>
    intro p pr h
    simp [deployACPDeception] at h
  | cons n rest ih =>
    intro p pr h
    simp only [deployACPDeception] at h
    by_cases hn : n ∈ knowledge
    · rw [if_pos hn] at h
      exact ih _ _ h
    · rw [if_neg hn] at h
      by_cases hd : o.unif p < strength
      · rw [if_pos hd] at h
        rcases List.mem_cons.mp h with h1 | h2
        · rw [h1]
          exact hn
        · exact ih _ _ h2
      · rw [if_neg hd] at h
        exact ih _ _ h

/-- C4: for every target list, time, attacker-knowledge set and every
outcome of the random draws, `OptimisticACPDefender.deploy_acp_deception`
returns a mapping containing no attacker-known node; and the Pessimistic
variant's `deploy_acp_deception` always returns the empty mapping. -/
theorem C4_deception_targeting :
    (∀ (o : Oracle) (strength : ℚ) (currentTime : Nat) (knowledge : Finset Nat)
        (p : Nat) (targets : List Nat) (pr : Nat × DeceptionRecord),
        pr ∈ (deployACPDeception o strength currentTime knowledge p targets).1 →
          pr.1 ∉ knowledge)
    ∧ ∀ (targets : List Nat) (currentTime : Nat) (knowledge : Finset Nat),
        pessimisticDeployACPDeception targets currentTime knowledge = [] :=
  ⟨fun o s ct k p t pr h => deploy_mem_not_in_knowledge o s ct k t p pr h,
   fun _ _ _ => rfl⟩

/-- The deception record produced for node 0 by the all-zero oracle. -/
def witnessRecord : DeceptionRecord :=
  { false_vulnerability := 0.85 + 0.13 * 0
    false_value := 0.75 + 0.2 * 0
    false_criticality := 0
    timestamp := 0
    success := true }

unseal Rat.add Rat.mul Rat.inv Rat.sub Rat.ofScientific in
/-- Witness for C4: node 0 is deceived by the all-zero oracle against
knowledge `{1}` and is indeed not attacker-known. -/
theorem C4_witness : ((0 : Nat), witnessRecord).1 ∉ ({1} : Finset Nat) :=
  C4_deception_targeting.1 constOracle 1 0 {1} 0 [0] (0, witnessRecord) (by decide)

/-! ### Episode loop lemmas -/

lemma stepOnce_stepCount (o : Oracle) (cfg : SimulationConfig) (u : Bool) (st : SimState) :
    (stepOnce o cfg u st).stepCount = st.stepCount + 1 := rfl

lemma runLoop_stepCount_le (o : Oracle) (cfg : SimulationConfig) (u : Bool) (m : Nat) :
    ∀ (fuel : Nat) (st : SimState),
      (runLoop o cfg u m fuel st).stepCount ≤ st.stepCount + fuel := by
  intro fuel
  induction fuel with
  | zero => intro st; exact Nat.le_refl _
  | succ k ih =>
    intro st
    simp only [runLoop]
    split
    · rw [stepOnce_stepCount]
      omega
    · have h := ih (stepOnce o cfg u st)
      rw [stepOnce_stepCount] at h
      omega

lemma run_steps_le_min (gen : Int → Oracle) (episode_id : Int) (use_acp : Bool)
    (config : SimulationConfig) :
    (run_single_episode gen episode_id use_acp config).steps
      ≤ min config.max_steps_per_episode config.num_nodes + 1 := by
  have h : (run_single_episode gen episode_id use_acp config).steps
      = (runLoop (gen (config.get_episode_seed episode_id)) config use_acp
          (min config.max_steps_per_episode config.num_nodes)
          (min config.max_steps_per_episode config.num_nodes + 1)
          (initialState (gen (config.get_episode_seed episode_id)) config.num_nodes)).stepCount :=
    rfl
  have h0 : (initialState (gen (config.get_episode_seed episode_id))
      config.num_nodes).stepCount = 0 := rfl
  have hb := runLoop_stepCount_le (gen (config.get_episode_seed episode_id)) config use_acp
    (min config.max_steps_per_episode config.num_nodes)
    (min config.max_steps_per_episode config.num_nodes + 1)
    (initialState (gen (config.get_episode_seed episode_id)) config.num_nodes)
  rw [h0] at hb
  rw [h]
  omega

/-! ### Claim C2 -/

/-- C2: an episode run is a pure function of the episode-seeded random
streams: any two processes whose generators agree at
`seed = config.random_seed + episode_id` (`get_episode_seed`) produce
identical episode results — the same per-step reward sequence, ordered
action list, action histogram and final attacker confidence. -/
theorem C2_episode_determinism :
    ∀ (gen1 gen2 : Int → Oracle) (episode_id : Int) (use_acp : Bool)
      (config : SimulationConfig),
      gen1 (config.get_episode_seed episode_id) = gen2 (config.get_episode_seed episode_id) →
        run_single_episode gen1 episode_id use_acp config
          = run_single_episode gen2 episode_id use_acp config := by
  intro g1 g2 e u c h
  unfold run_single_episode
  rw [h]

/-- The default configuration of `SimulationConfig`. -/
def configW : SimulationConfig :=
  { num_episodes := 1000, num_nodes := 50, connectivity := 0.6, acp_strength := 0.65,
    learning_rate := 1, decay_rate := 0.8, noise := 0.1, vulnerability_distribution := 0,
    random_seed := 42, max_steps_per_episode := 60 }

/-- Witness for C2: two runs over the same seeded generator coincide. -/
theorem C2_witness :
    run_single_episode (fun _ => constOracle) 0 true configW
      = run_single_episode (fun _ => constOracle) 0 true configW :=
  C2_episode_determinism (fun _ => constOracle) (fun _ => constOracle) 0 true configW rfl

/-! ### Claim C3 -/

/-- C3: every episode terminates — the step loop executes at most
`max_steps_per_episode + 1` steps; the environment's termination check is
exactly `#compromised > 0.7 * num_nodes ∨ current_time > 50`; and the loop
returns immediately after any step whose termination check fires. -/
theorem C3_episode_termination :
    (∀ (gen : Int → Oracle) (episode_id : Int) (use_acp : Bool) (config : SimulationConfig),
        (run_single_episode gen episode_id use_acp config).steps
          ≤ config.max_steps_per_episode + 1)
    ∧ (∀ env : EnvState, checkTermination env = true ↔
        ((0.7 : ℚ) * (env.numNodes : ℚ) < (compromisedCount env : ℚ) ∨ 50 < env.time))
    ∧ ∀ (o : Oracle) (cfg : SimulationConfig) (useAcp : Bool) (maxSteps fuel : Nat)
        (st : SimState),
        (stepOnce o cfg useAcp st).done = true →
          runLoop o cfg useAcp maxSteps (fuel + 1) st = stepOnce o cfg useAcp st := by
  refine ⟨?_, ?_, ?_⟩
  · intro gen e u c
    have h := run_steps_le_min gen e u c
    have hm := Nat.min_le_left c.max_steps_per_episode c.num_nodes
    omega
  · intro env
    simp [checkTermination]
  · intro o cfg u m fuel st h
    simp only [runLoop]
    rw [h]
    simp

/-- A ten-node environment in which eight nodes are already compromised. -/
def envW : EnvState :=
  { numNodes := 10, adj := fun _ _ => false,
    states := fun i => if i < 8 then NodeState.COMPROMISED else NodeState.CLEAN,
    vuln := fun _ => 0.5, time := 0 }

/-- A mid-episode state over `envW` with a fresh attacker and defender. -/
def stW : SimState :=
  { env := envW, known := ∅, comp := ∅, att := attackerInit,
    defNodeStates := fun _ => NodeState.CLEAN, pos := 0, stepCount := 0,
    actions := [], rewardsPerStep := [], confTrajectory := [], totalReward := 0,
    done := false }

unseal Rat.add Rat.mul Rat.inv Rat.sub Rat.ofScientific in
/-- Witness for C3: stepping `stW` trips the 70% compromise check
(8 > 0.7 * 10) and the loop stops right there. -/
theorem C3_witness :
    (stepOnce constOracle configW true stW).done = true
    ∧ runLoop constOracle configW true 5 3 stW = stepOnce constOracle configW true stW := by
  have h : (stepOnce constOracle configW true stW).done = true := by decide
  exact ⟨h, C3_episode_termination.2.2 constOracle configW true 5 2 stW h⟩

/-! ### Claim C10 -/

/-- C10: the episode loop is capped at
`min(max_steps_per_episode, num_nodes) + 1` steps, so when `num_nodes` is
smaller than `max_steps_per_episode` the effective cap is `num_nodes + 1`
regardless of the configured maximum — in particular a 20-node episode
configured for 60 steps can never report 60 steps. -/
theorem C10_effective_step_cap :
    (∀ (gen : Int → Oracle) (episode_id : Int) (use_acp : Bool) (config : SimulationConfig),
        (run_single_episode gen episode_id use_acp config).steps
          ≤ min config.max_steps_per_episode config.num_nodes + 1)
    ∧ ∀ (gen : Int → Oracle) (episode_id : Int) (use_acp : Bool) (config : SimulationConfig),
        config.num_nodes = 20 → config.max_steps_per_episode = 60 →
          (run_single_episode gen episode_id use_acp config).steps < 60 := by
  constructor
  · exact run_steps_le_min
  · intro gen e u c h20 h60
    have h := run_steps_le_min gen e u c
    rw [h20, h60] at h
    norm_num at h
    omega

/-- The default configuration restricted to a 20-node network. -/
def config20 : SimulationConfig := { configW with num_nodes := 20 }

/-- Witness for C10: a 20-node episode with a 60-step configured maximum
runs fewer than 60 steps. -/
theorem C10_witness :
    (run_single_episode (fun _ => constOracle) 0 true config20).steps < 60 :=
  C10_effective_step_cap.2 (fun _ => constOracle) 0 true config20 rfl rfl

/-! ### Claim C9 -/

lemma execAttacker_sets_subset (o : Oracle) (p : Nat) (a : ActionType) (env : EnvState)
    (known comp : Finset Nat) :
    known ⊆ (execAttackerAction o p a env known comp).known
    ∧ comp ⊆ (execAttackerAction o p a env known comp).comp := by
  cases a with
  | SCAN =>
    simp only [execAttackerAction]
    split
    · exact ⟨Finset.subset_insert _ _, Finset.Subset.refl _⟩
    · split
      · exact ⟨Finset.Subset.refl _, Finset.Subset.refl _⟩
      · exact ⟨Finset.subset_insert _ _, Finset.Subset.refl _⟩
  | EXPLOIT =>
    simp only [execAttackerAction]
    split
    · exact ⟨Finset.Subset.refl _, Finset.Subset.refl _⟩
    · split
      · exact ⟨Finset.Subset.refl _, Finset.subset_insert _ _⟩
      · exact ⟨Finset.Subset.refl _, Finset.Subset.refl _⟩
  | PROPAGATE =>
    simp only [execAttackerAction]
    split
    · exact ⟨Finset.Subset.refl _, Finset.Subset.refl _⟩
    · split
      · exact ⟨Finset.Subset.refl _, Finset.Subset.refl _⟩
      · split
        · exact ⟨Finset.subset_insert _ _, Finset.subset_insert _ _⟩
        · exact ⟨Finset.Subset.refl _, Finset.Subset.refl _⟩
  | MONITOR => exact ⟨Finset.Subset.refl _, Finset.Subset.refl _⟩
  | PATCH => exact ⟨Finset.Subset.refl _, Finset.Subset.refl _⟩
  | ISOLATE => exact ⟨Finset.Subset.refl _, Finset.Subset.refl _⟩
  | DEPLOY_HONEYPOT => exact ⟨Finset.Subset.refl _, Finset.Subset.refl _⟩
  | ACP_DECEPTION => exact ⟨Finset.Subset.refl _, Finset.Subset.refl _⟩
  | RESTORE_NODE => exact ⟨Finset.Subset.refl _, Finset.Subset.refl _⟩

/-- C9: within a step, the attacker's `known_nodes` and
`compromised_nodes` only ever gain elements: every attacker action adds
nodes or leaves the sets unchanged, and the full engine step — including
every defender action (Isolate, RestoreNode, ...), which mutates only the
environment's node states — never removes an element, so both cardinals
are non-decreasing across steps. -/
theorem C9_monotone_discovery :
    (∀ (o : Oracle) (p : Nat) (a : ActionType) (env : EnvState) (known comp : Finset Nat),
        known ⊆ (execAttackerAction o p a env known comp).known
        ∧ comp ⊆ (execAttackerAction o p a env known comp).comp)
    ∧ ∀ (o : Oracle) (cfg : SimulationConfig) (useAcp : Bool) (st : SimState),
        st.known ⊆ (stepOnce o cfg useAcp st).known
        ∧ st.comp ⊆ (stepOnce o cfg useAcp st).comp
        ∧ st.known.card ≤ (stepOnce o cfg useAcp st).known.card
        ∧ st.comp.card ≤ (stepOnce o cfg useAcp st).comp.card := by
  constructor
  · exact execAttacker_sets_subset
  · intro o cfg u st
    have h := execAttacker_sets_subset o
      (defenderPhase o u cfg.acp_strength
        (if u then acpSelectAction o (attackerSelectAction o st.pos st.att).2
            (((nodesList st.env).filter fun i => decide (i ∉ st.known)).length)
            (!((nodesList st.env).filter fun i =>
              decide (st.defNodeStates i = NodeState.COMPROMISED)).isEmpty)
          else pessimisticSelectAction o (attackerSelectAction o st.pos st.att).2
            (!((nodesList st.env).filter fun i =>
              decide (st.defNodeStates i = NodeState.COMPROMISED)).isEmpty)).1
        { st.env with time := st.env.time + 1 } st.known
        ((if u then acpSelectAction o (attackerSelectAction o st.pos st.att).2
            (((nodesList st.env).filter fun i => decide (i ∉ st.known)).length)
            (!((nodesList st.env).filter fun i =>
              decide (st.defNodeStates i = NodeState.COMPROMISED)).isEmpty)
          else pessimisticSelectAction o (attackerSelectAction o st.pos st.att).2
            (!((nodesList st.env).filter fun i =>
              decide (st.defNodeStates i = NodeState.COMPROMISED)).isEmpty)).2 + 1)).pos
      (attackerSelectAction o st.pos st.att).1
      (defenderPhase o u cfg.acp_strength
        (if u then acpSelectAction o (attackerSelectAction o st.pos st.att).2
            (((nodesList st.env).filter fun i => decide (i ∉ st.known)).length)
            (!((nodesList st.env).filter fun i =>
              decide (st.defNodeStates i = NodeState.COMPROMISED)).isEmpty)
          else pessimisticSelectAction o (attackerSelectAction o st.pos st.att).2
            (!((nodesList st.env).filter fun i =>
              decide (st.defNodeStates i = NodeState.COMPROMISED)).isEmpty)).1
        { st.env with time := st.env.time + 1 } st.known
        ((if u then acpSelectAction o (attackerSelectAction o st.pos st.att).2
            (((nodesList st.env).filter fun i => decide (i ∉ st.known)).length)
            (!((nodesList st.env).filter fun i =>
              decide (st.defNodeStates i = NodeState.COMPROMISED)).isEmpty)
          else pessimisticSelectAction o (attackerSelectAction o st.pos st.att).2
            (!((nodesList st.env).filter fun i =>
              decide (st.defNodeStates i = NodeState.COMPROMISED)).isEmpty)).2 + 1)).env
      st.known st.comp
    exact ⟨h.1, h.2, Finset.card_le_card h.1, Finset.card_le_card h.2⟩

/-! ### Claim C6 -/

lemma learn_memory_le_150 (act : Instance → ℚ) (s : AttackerState) (sit : Situation)
    (a : ActionType) (out : ℚ) (t : Nat) (conf : ℚ) :
    (learn act s sit a out t conf).memory.length ≤ 150 := by
  simp only [learn]
  split
  next h => exact le_trans (List.length_take_le _ _) (by norm_num)
  next h => omega

lemma runLearn_foldl_le_150 :
    ∀ (calls : List LearnCall) (s : AttackerState), s.memory.length ≤ 150 →
      (calls.foldl applyLearn s).memory.length ≤ 150 := by
  intro calls
  induction calls with
  | nil => intro s hs; exact hs
  | cons c rest ih =>
    intro s _
    exact ih _ (learn_memory_le_150 c.act s c.situation c.action c.outcome c.timestamp
      c.confidence)

lemma pairwise_take_drop {α : Type} {r : α → α → Prop} {l : List α}
    (h : l.Pairwise r) (n : Nat) :
    ∀ x ∈ l.take n, ∀ y ∈ l.drop n, r x y := by
  have hsplit : l.take n ++ l.drop n = l := List.take_append_drop n l
  rw [← hsplit] at h
  exact (List.pairwise_append.mp h).2.2

/-- C6: starting from a fresh attacker, the memory never exceeds 150
entries immediately after any `learn` call; and whenever a `learn` call
triggers pruning (the append pushed the length past 150), the post-call
memory is exactly the first 100 entries of the memory sorted by
`activation * confidence` descending — hence at most 100 entries, a
permutation-restriction of the pre-prune memory, and every retained entry
has a key at least as large as every discarded one. -/
theorem C6_memory_cap :
    (∀ calls : List LearnCall, (runLearn calls).memory.length ≤ 150)
    ∧ ∀ (act : Instance → ℚ) (s : AttackerState) (sit : Situation) (a : ActionType)
        (out : ℚ) (t : Nat) (conf : ℚ),
        150 < (s.memory ++ [(⟨sit, a, out, t, conf⟩ : Instance)]).length →
          (learn act s sit a out t conf).memory
              = ((s.memory ++ [(⟨sit, a, out, t, conf⟩ : Instance)]).insertionSort (pruneLe act)).take 100
          ∧ (learn act s sit a out t conf).memory.length ≤ 100
          ∧ ((s.memory ++ [(⟨sit, a, out, t, conf⟩ : Instance)]).insertionSort (pruneLe act)).Perm
              (s.memory ++ [(⟨sit, a, out, t, conf⟩ : Instance)])
          ∧ ∀ x ∈ (learn act s sit a out t conf).memory,
            ∀ y ∈ ((s.memory ++ [(⟨sit, a, out, t, conf⟩ : Instance)]).insertionSort (pruneLe act)).drop 100,
              pruneKey act y ≤ pruneKey act x := by
  constructor
  · intro calls
    exact runLearn_foldl_le_150 calls attackerInit (by simp [attackerInit])
  · intro act s sit a out t conf h
    have hmem : (learn act s sit a out t conf).memory
        = ((s.memory ++ [(⟨sit, a, out, t, conf⟩ : Instance)]).insertionSort (pruneLe act)).take 100 := by
      simp only [learn]
      rw [if_pos h]
    refine ⟨hmem, ?_, List.perm_insertionSort _ _, ?_⟩
    · rw [hmem]
      exact List.length_take_le _ _
    · intro x hx y hy
      rw [hmem] at hx
      have hsorted : ((s.memory ++ [(⟨sit, a, out, t, conf⟩ : Instance)]).insertionSort
          (pruneLe act)).Pairwise (pruneLe act) :=
        List.sorted_insertionSort (pruneLe act) _
      exact pairwise_take_drop hsorted 100 x hx y hy

/-- An inert memory record used to build concrete witness states. -/
def dummyInstance : Instance :=
  { situation := (0, 0, 0, 0), action := ActionType.SCAN, outcome := 0,
    timestamp := 0, confidence := 1 }

/-- An attacker state already holding 150 records. -/
def fullState : AttackerState :=
  { memory := List.replicate 150 dummyInstance, overall_confidence := 1 }

/-- Witness for C6: learning a 151st record prunes the memory to at most
100 entries. -/
theorem C6_witness :
    (learn (fun _ => 0) fullState (0, 0, 0, 0) ActionType.SCAN 0 7 1).memory.length ≤ 100 :=
  ((C6_memory_cap.2 (fun _ => 0) fullState (0, 0, 0, 0) ActionType.SCAN 0 7 1)
    (by simp [fullState])).2.1

/-! ### Claim C7 -/

/-- Invariant carried through `learn` calls: the overall confidence and
every stored confidence lie in `[0, 1]`. -/
def ConfBounded (s : AttackerState) : Prop :=
  0 ≤ s.overall_confidence ∧ s.overall_confidence ≤ 1
    ∧ ∀ i ∈ s.memory, 0 ≤ i.confidence ∧ i.confidence ≤ 1

lemma confMean_bounds (l : List Instance) (hne : l ≠ [])
    (h : ∀ i ∈ l, 0 ≤ i.confidence ∧ i.confidence ≤ 1) :
    0 ≤ confMean l ∧ confMean l ≤ 1 := by
  have hlen : 0 < (l.length : ℚ) := by
    have hp : 0 < l.length := List.length_pos.mpr hne
    exact_mod_cast hp
  constructor
  · apply div_nonneg _ (le_of_lt hlen)
    apply List.sum_nonneg
    intro x hx
    obtain ⟨i, hi, rfl⟩ := List.mem_map.mp hx
    exact (h i hi).1
  · rw [confMean, div_le_one hlen]
    calc (l.map Instance.confidence).sum
        ≤ (l.map Instance.confidence).length • (1 : ℚ) := by
          apply List.sum_le_card_nsmul
          intro x hx
          obtain ⟨i, hi, rfl⟩ := List.mem_map.mp hx
          exact (h i hi).2
      _ = (l.length : ℚ) := by simp

lemma learn_preserves_ConfBounded (act : Instance → ℚ) (s : AttackerState)
    (sit : Situation) (a : ActionType) (out : ℚ) (t : Nat) (conf : ℚ)
    (hs : ConfBounded s) (hc : 0 ≤ conf ∧ conf ≤ 1) :
    ConfBounded (learn act s sit a out t conf) := by
  obtain ⟨h0, h1, hmem⟩ := hs
  have hmem1 : ∀ i ∈ s.memory ++ [(⟨sit, a, out, t, conf⟩ : Instance)],
      0 ≤ i.confidence ∧ i.confidence ≤ 1 := by
    intro i hi
    rcases List.mem_append.mp hi with hi | hi
    · exact hmem i hi
    · rw [List.mem_singleton.mp hi]
      exact hc
  have hL : (s.memory ++ [(⟨sit, a, out, t, conf⟩ : Instance)]).length
      = s.memory.length + 1 := by simp
  have hlastne : lastN 20 (s.memory ++ [(⟨sit, a, out, t, conf⟩ : Instance)]) ≠ [] := by
    apply List.ne_nil_of_length_pos
    rw [lastN, List.length_drop]
    omega
  have hlast : ∀ i ∈ lastN 20 (s.memory ++ [(⟨sit, a, out, t, conf⟩ : Instance)]),
      0 ≤ i.confidence ∧ i.confidence ≤ 1 := by
    intro i hi
    exact hmem1 i (List.mem_of_mem_drop hi)
  have hmean := confMean_bounds _ hlastne hlast
  have hrfl : (learn act s sit a out t conf).overall_confidence
      = 0.9 * s.overall_confidence
        + 0.1 * confMean (lastN 20 (s.memory ++ [(⟨sit, a, out, t, conf⟩ : Instance)])) := rfl
  refine ⟨?_, ?_, ?_⟩
  · rw [hrfl]
    linarith [hmean.1]
  · rw [hrfl]
    linarith [hmean.2]
  · intro i hi
    have hin : i ∈ s.memory ++ [(⟨sit, a, out, t, conf⟩ : Instance)] := by
      simp only [learn] at hi
      split at hi
      · exact (List.perm_insertionSort (pruneLe act) _).mem_iff.mp (List.mem_of_mem_take hi)
      · exact hi
    exact hmem1 i hin

/-- C7: with every confidence argument in `[0, 1]` (as the engine supplies:
1.0 normally, a draw from `[0.3, 0.5]` under poisoning),
`overall_confidence` starts at 1.0 and remains inside `[0, 1]` after
arbitrarily many `learn` calls: every update
`0.9 * prev + 0.1 * average` preserves the bound. -/
theorem C7_confidence_bounds :
    attackerInit.overall_confidence = 1
    ∧ ∀ calls : List LearnCall,
        (∀ c ∈ calls, 0 ≤ c.confidence ∧ c.confidence ≤ 1) →
          0 ≤ (runLearn calls).overall_confidence
          ∧ (runLearn calls).overall_confidence ≤ 1 := by
  constructor
  · rfl
  · intro calls h
    have main : ∀ (cs : List LearnCall) (s : AttackerState), ConfBounded s →
        (∀ c ∈ cs, 0 ≤ c.confidence ∧ c.confidence ≤ 1) →
          ConfBounded (cs.foldl applyLearn s) := by
      intro cs
      induction cs with
      | nil => intro s hs _; exact hs
      | cons c rest ih =>
        intro s hs hcs
        exact ih _
          (learn_preserves_ConfBounded c.act s c.situation c.action c.outcome c.timestamp
            c.confidence hs (hcs c (List.mem_cons_self _ _)))
          (fun d hd => hcs d (List.mem_cons_of_mem _ hd))
    have hinit : ConfBounded attackerInit :=
      ⟨by norm_num [attackerInit], by norm_num [attackerInit], by simp [attackerInit]⟩
    have hres := main calls attackerInit hinit h
    exact ⟨hres.1, hres.2.1⟩

/-- Witness for C7: one learn call with confidence 1/2 keeps the overall
confidence inside the unit interval. -/
theorem C7_witness :
    0 ≤ (runLearn [⟨fun _ => 0, (0, 0, 0, 0), ActionType.SCAN, 0, 1, 1/2⟩]).overall_confidence
    ∧ (runLearn [⟨fun _ => 0, (0, 0, 0, 0), ActionType.SCAN, 0, 1, 1/2⟩]).overall_confidence
        ≤ 1 :=
  C7_confidence_bounds.2 _ (by
    intro c hc
    rw [List.mem_singleton.mp hc]
    norm_num)

/-! ### Claim C8 -/

/-- C8 (amended): every `learn` call appends exactly one `Instance` before
updating, sets `overall_confidence` to
`0.9 * prev + 0.1 * mean(confidence of the last 20 list entries of the
appended memory)`, and — when no pruning fires — leaves the memory equal
to the old memory with the one new instance appended. -/
theorem C8_learn_update :
    ∀ (act : Instance → ℚ) (s : AttackerState) (sit : Situation) (a : ActionType)
      (out : ℚ) (t : Nat) (conf : ℚ),
      (learn act s sit a out t conf).overall_confidence
          = 0.9 * s.overall_confidence
            + 0.1 * confMean (lastN 20 (s.memory ++ [(⟨sit, a, out, t, conf⟩ : Instance)]))
      ∧ ((s.memory ++ [(⟨sit, a, out, t, conf⟩ : Instance)]).length ≤ 150 →
          (learn act s sit a out t conf).memory
            = s.memory ++ [(⟨sit, a, out, t, conf⟩ : Instance)]) := by
  intro act s sit a out t conf
  refine ⟨rfl, ?_⟩
  intro h
  simp only [learn]
  rw [if_neg (by omega)]

unseal Rat.add Rat.mul Rat.inv Rat.sub Rat.ofScientific in
/-- Witness for C8: learning into a fresh attacker appends the single new
instance. -/
theorem C8_witness :
    (learn (fun _ => 0) attackerInit (0, 0, 0, 0) ActionType.SCAN 0 1 1).memory
      = [(⟨(0, 0, 0, 0), ActionType.SCAN, 0, 1, 1⟩ : Instance)] :=
  (C8_learn_update (fun _ => 0) attackerInit (0, 0, 0, 0) ActionType.SCAN 0 1 1).2
    (by decide)

/-- Ordering of instances by storage recency (greatest timestamp first). -/
def timestampDesc (a b : Instance) : Prop := b.timestamp ≤ a.timestamp

instance : DecidableRel timestampDesc :=
  fun a b => inferInstanceAs (Decidable (b.timestamp ≤ a.timestamp))

instance : IsTotal Instance timestampDesc := ⟨fun a b => Nat.le_total b.timestamp a.timestamp⟩

instance : IsTrans Instance timestampDesc := ⟨fun _ _ _ h1 h2 => Nat.le_trans h2 h1⟩

/-- The value claimed by the specification for the averaging window:
the mean confidence of the 20 most recently stored instances (those with
the greatest timestamps), of all stored instances when fewer than 20
exist.  This definition follows the claim's words and is compared against
the source's `memory[-20:]` window. -/
def specMostRecentMean (mem : List Instance) : ℚ :=
  confMean ((mem.insertionSort timestampDesc).take 20)

/-- Confidence schedule of the refuting script: the first 19 learn calls
carry confidence 1/2, all later ones carry confidence 1. -/
def scriptConfidence (t : Nat) : ℚ := if t ≤ 19 then 1/2 else 1

/-- Activation values of the refuting script (one possible outcome of the
noisy activation computation): old instances activate high, instances
stored after time 100 activate negatively. -/
def scriptActivation (i : Instance) : ℚ :=
  if 101 ≤ i.timestamp then -(i.timestamp : ℚ) else (i.timestamp : ℚ)

/-- A fresh attacker after `n` scripted learn calls with timestamps
`1, ..., n`. -/
def runScript : Nat → AttackerState
  | 0 => attackerInit
  | n + 1 =>
    learn scriptActivation (runScript n) (0, 0, 0, 0) ActionType.SCAN 0 (n + 1)
      (scriptConfidence (n + 1))

unseal Rat.add Rat.mul Rat.inv Rat.sub Rat.ofScientific in
/-- Counterexample to C8 as stated: at the 152nd scripted learn call — the
first call after a pruning event, which left the memory ranked by
activation rather than by storage order — the code averages the last 20
list entries (mean 21/40 here), not the confidences of the 20 most
recently stored instances (mean 1 here), so the claimed update equation
fails. -/
theorem C8_counterexample :
    (runScript 152).overall_confidence
      ≠ 0.9 * (runScript 151).overall_confidence
          + 0.1 * specMostRecentMean
              ((runScript 151).memory
                ++ [(⟨(0, 0, 0, 0), ActionType.SCAN, 0, 152, scriptConfidence 152⟩ : Instance)]) := by
  have hcode : (runScript 152).overall_confidence
      = 0.9 * (runScript 151).overall_confidence
        + 0.1 * confMean (lastN 20 ((runScript 151).memory
            ++ [(⟨(0, 0, 0, 0), ActionType.SCAN, 0, 152, scriptConfidence 152⟩ : Instance)])) := rfl
  have h1 : confMean (lastN 20 ((runScript 151).memory
      ++ [(⟨(0, 0, 0, 0), ActionType.SCAN, 0, 152, scriptConfidence 152⟩ : Instance)]))
      = 21/40 := by decide
  have h2 : specMostRecentMean ((runScript 151).memory
      ++ [(⟨(0, 0, 0, 0), ActionType.SCAN, 0, 152, scriptConfidence 152⟩ : Instance)])
      = 1 := by decide
  rw [hcode, h1, h2]
  intro hcontra
  have hfrac := add_left_cancel hcontra
  norm_num at hfrac
